import Mathlib

/-!
Verification of the include-block compile/execute engine
(`src/rust/node-execute/src/include_block.rs`) and the SMD argument
encoding (`src/rust/schema/src/implem/include_block.rs`).

Strings are modelled as Lean `String` values; the Rust `str` methods used
by the source (`trim`, `starts_with`, `ends_with`, byte slicing of an
ASCII-delimited interior, `is_empty`) are defined below over the
underlying character list so that they are directly computable and
amenable to induction.  External collaborators (the Codec, the generic
tree walker, the kernel runtime) are passed in as explicit function
parameters, matching the spec's description of them as external
contracts.
-/

namespace IncludeBlockVerif

/-- Whitespace test used by `trim` (the ASCII whitespace characters that are
relevant to the sources handled here; Rust's `str::trim` also trims further
Unicode whitespace, which never occurs in the inputs considered). -/
def charIsWs (c : Char) : Bool :=
  c = ' ' || c = '\t' || c = '\n' || c = '\r'

/-- Drop leading whitespace characters, as `str::trim_start`. -/
def trimLeftChars : List Char → List Char
  | [] => []
  | c :: cs => if charIsWs c then trimLeftChars cs else c :: cs

/-- Trim whitespace from both ends of a character list, as `str::trim`. -/
def trimChars (cs : List Char) : List Char :=
  (trimLeftChars (trimLeftChars cs).reverse).reverse

/-- Rust `str::trim`. -/
def strTrim (s : String) : String :=
  ⟨trimChars s.data⟩

/-- Rust `str::starts_with`. -/
def strStartsWith (s pre : String) : Bool :=
  pre.data.isPrefixOf s.data

/-- Rust `str::ends_with`. -/
def strEndsWith (s suf : String) : Bool :=
  suf.data.isSuffixOf s.data

/-- Drop the first `n` characters of a string (the slice `[n..]`; the source
only slices at ASCII brace boundaries, where byte and character indices
coincide). -/
def strDrop (s : String) (n : Nat) : String :=
  ⟨s.data.drop n⟩

/-- Drop the last `n` characters of a string (the slice `[..len-n]`). -/
def strDropRight (s : String) (n : Nat) : String :=
  ⟨s.data.take (s.data.length - n)⟩

/-- Severity of a compilation message (`MessageLevel` in the schema). -/
inductive MessageLevel where
  | Info
  | Warning
  | Error
deriving Repr, DecidableEq

/-- A compilation message attached to a node after compile/resolution. -/
structure CompilationMessage where
  level : MessageLevel
  message : String
deriving Repr, DecidableEq

/-- Modelled from the spec: the crate-prelude helper
`error_to_compilation_message` (not under `src/`) converts a collaborator
error into an Error-level `CompilationMessage` (spec section 4.3: "convert the
Codec's error into an Error-level CompilationMessage"). -/
def error_to_compilation_message (error : String) : CompilationMessage :=
  ⟨MessageLevel.Error, error⟩

/-- Kernel value nodes (`stencila_schema::Node`); the include logic treats
them opaquely, so a few representative variants suffice. -/
inductive Node where
  | string (s : String)
  | integer (i : Int)
  | boolean (b : Bool)
  | null
deriving Repr, DecidableEq

/-- A block of document content.  Blocks are opaque to the include logic
(only stored, cloned and patched), so they are modelled by an identifier. -/
structure Block where
  id : Nat
deriving Repr, DecidableEq

/-- A node as decoded by the Codec collaborator, before conversion into
blocks; opaque to the include logic. -/
structure DecodedNode where
  id : Nat
deriving Repr, DecidableEq

/-- A call argument of an include block (`CallArgument`): `code` is an
expression or bare variable reference (empty means "use `value`") and
`value` an optional literal. -/
structure Argument where
  name : String
  code : String
  value : Option Node := none
deriving Repr, DecidableEq

/-- The include block node.  `id` stands for the node id used to address
patches; `compilation_messages` is `options.compilation_messages` in the
schema. -/
structure IncludeBlock where
  id : Nat := 0
  source : String := ""
  media_type : Option String := none
  select : Option String := none
  arguments : List Argument := []
  content : Option (List Block) := none
  compilation_messages : Option (List CompilationMessage) := none
deriving Repr, DecidableEq

/-- A filesystem path, as an absoluteness flag plus a list of components
(mirroring `std::path::Path` component structure). -/
structure FsPath where
  absolute : Bool
  components : List String
deriving Repr, DecidableEq

/-- Rust `Path::join`: an absolute right operand replaces the base. -/
def FsPath.join (base p : FsPath) : FsPath :=
  if p.absolute then p else ⟨base.absolute, base.components ++ p.components⟩

/-- Rust `Path::parent`: `none` for a root or empty path, otherwise the path
without its last component. -/
def FsPath.parent (p : FsPath) : Option FsPath :=
  match p.components with
  | [] => none
  | _ :: _ => some ⟨p.absolute, p.components.dropLast⟩

/-- Parse a source string into a path (split on the separator, dropping
empty components as `Path::components` does). -/
def parsePath (s : String) : FsPath :=
  ⟨strStartsWith s "/", ((s.data.splitOn '/').filter (fun l => l ≠ [])).map (fun l => ⟨l⟩)⟩

/-- Rust `Path::to_string_lossy` for the paths built here. -/
def FsPath.render (p : FsPath) : String :=
  (if p.absolute then "/" else "") ++ String.intercalate "/" p.components

/-- Decode options handed to the Codec (`stencila_codecs::DecodeOptions`).
`other` stands in for the remaining ambient options copied by the struct
update `..executor.decode_options`. -/
structure DecodeOptions where
  media_type : Option String := none
  format : Option String := none
  other : List (String × String) := []
deriving Repr, DecidableEq

/-- Node properties addressed by patches (the two used by this code). -/
inductive NodeProperty where
  | content
  | compilationMessages
deriving Repr, DecidableEq

/-- Value payload of a patch operation. -/
inductive PatchValue where
  | blocks (bs : List Block)
  | messages (ms : Option (List CompilationMessage))
deriving Repr, DecidableEq

/-- A patch operation (`none`, `append`, `set` in the patch DSL of the
source; `none` is rendered `clear` to avoid clashing with `Option.none`). -/
inductive PatchOp where
  | clear (prop : NodeProperty)
  | append (prop : NodeProperty) (value : PatchValue)
  | set (prop : NodeProperty) (value : PatchValue)
deriving Repr, DecidableEq

/-- The mutable executor state threaded through compile: the directory
stack (head of the list is the top of the stack, i.e. `Vec::last`) and the
accumulated patches, in emission order. -/
structure ExecSt where
  directory_stack : List FsPath := []
  patches : List (Nat × List PatchOp) := []
deriving Repr, DecidableEq

/-- Record one ordered patch emission (`executor.patch(node_id, ops)`). -/
def ExecSt.patch (st : ExecSt) (node_id : Nat) (ops : List PatchOp) : ExecSt :=
  { st with patches := st.patches ++ [(node_id, ops)] }

/-- Walk-control signal returned by each phase operation. -/
inductive WalkControl where
  | Continue
  | Break
  | Stop
deriving Repr, DecidableEq

/-- The external collaborators reachable through the executor: the Codec
(`stencila_codecs::from_identifier`), the node-to-blocks conversion
(`Node::try_into`), the generic tree walker used for the nested compile of
fetched content (`walk_async`), the ambient decode options, and the
execution context's default programming language. -/
structure Env where
  decode : String → DecodeOptions → Except String DecodedNode
  try_into_blocks : DecodedNode → Except String (List Block)
  walk : Option (List Block) → ExecSt → Except String Unit × ExecSt
  decode_options : Option DecodeOptions := none
  default_language : Option String := none

/-- Modelled from the spec: `executor.programming_language(&node_lang)`
(not under `src/`) resolves the node's language, falling back to the
execution context's default language when the node sets none (spec
section 4.2). -/
def programming_language (env : Env) (node_lang : Option String) : Option String :=
  match node_lang with
  | some l => some l
  | none => env.default_language

/-- The path a relative source resolves to: joined onto the current top of
the directory stack, or taken as-is when the stack is empty (lines 163-166
of `include_block.rs`). -/
def resolved_path (source : String) (st : ExecSt) : FsPath :=
  match st.directory_stack.head? with
  | some dir => dir.join (parsePath source)
  | none => parsePath source

/-- Resolution of `source` into a Codec identifier (lines 157-179 of
`include_block.rs`): URLs are used verbatim; a relative source is resolved
against the stack top and its parent directory is pushed when it differs
from the current top.  Returns the identifier, the pop-owed flag and the
updated state. -/
def resolve_source (source : String) (st : ExecSt) : String × Bool × ExecSt :=
  if strStartsWith source "https://" || strStartsWith source "http://" then
    (source, false, st)
  else
    let last_dir := st.directory_stack.head?
    let path := resolved_path source st
    match path.parent with
    | some dir =>
      if some dir ≠ last_dir then
        (path.render, true, { st with directory_stack := dir :: st.directory_stack })
      else
        (path.render, false, st)
    | none => (path.render, false, st)

/-- The decode options built for the include decode (lines 184-190): the
node's media type, format explicitly cleared, other ambient options kept. -/
def include_decode_options (media_type : Option String) (env : Env) : DecodeOptions :=
  { env.decode_options.getD {} with media_type := media_type, format := none }

/-- Source resolution, `source_to_content` (lines 150-216): resolve the identifier, decode it
with the Codec, convert the decoded node into blocks; failures become
Error-level messages and no content. -/
def source_to_content (source : String) (media_type : Option String)
    (env : Env) (st : ExecSt) :
    Option (List Block) × Bool × List CompilationMessage × ExecSt :=
  let (identifier, pop_dir, st) := resolve_source source st
  match env.decode identifier (include_decode_options media_type env) with
  | Except.ok node =>
    match env.try_into_blocks node with
    | Except.ok blocks => (some blocks, pop_dir, [], st)
    | Except.error error =>
      (none, pop_dir,
        [⟨MessageLevel.Error, "Unable to convert source into block content: " ++ error⟩], st)
  | Except.error error => (none, pop_dir, [error_to_compilation_message error], st)

/-- Result of one phase operation on an include block. -/
structure CompileResult where
  block : IncludeBlock
  st : ExecSt
  control : WalkControl
deriving Repr

/-- The resolution half of `compile` (lines 26-45): fetch the content,
replace `self.content` destructively and emit the corresponding patch
(`none` then `append` on success, `none` alone on failure). -/
def compile_resolve (b : IncludeBlock) (env : Env) (st : ExecSt) :
    IncludeBlock × Bool × List CompilationMessage × ExecSt :=
  let (content, pop_dir, messages, st) := source_to_content b.source b.media_type env st
  match content with
  | some content =>
    ({ b with content := some content }, pop_dir, messages,
      st.patch b.id [PatchOp.clear NodeProperty.content,
                     PatchOp.append NodeProperty.content (PatchValue.blocks content)])
  | none =>
    ({ b with content := none }, pop_dir, messages,
      st.patch b.id [PatchOp.clear NodeProperty.content])

/-- Compile phase, `IncludeBlock::compile` (lines 10-66): early `Continue` on a blank
source; otherwise resolve and replace content, walk the new content,
append any walk error as a message, pop the directory stack if a push is
owed, replace `compilation_messages` (empty list stored as `none`), patch
it, and `Break`. -/
def compile (b : IncludeBlock) (env : Env) (st : ExecSt) : CompileResult :=
  if strTrim b.source = "" then
    ⟨b, st, WalkControl.Continue⟩
  else
    let (b1, pop_dir, messages, st1) := compile_resolve b env st
    let (walk_result, st2) := env.walk b1.content st1
    let messages :=
      match walk_result with
      | Except.ok _ => messages
      | Except.error error => messages ++ [error_to_compilation_message error]
    let st3 :=
      if pop_dir then { st2 with directory_stack := st2.directory_stack.tail } else st2
    let messages_opt := if messages = [] then none else some messages
    let b2 := { b1 with compilation_messages := messages_opt }
    let st4 := st3.patch b.id
      [PatchOp.set NodeProperty.compilationMessages (PatchValue.messages messages_opt)]
    ⟨b2, st4, WalkControl.Break⟩

/-- The messages generated by one `compile` of a non-blank source: those
raised during resolution plus, if the nested walk of the new content
failed, its error converted to a message. -/
def compile_generated_messages (b : IncludeBlock) (env : Env) (st : ExecSt) :
    List CompilationMessage :=
  let (b1, _, messages, st1) := compile_resolve b env st
  match (env.walk b1.content st1).1 with
  | Except.ok _ => messages
  | Except.error error => messages ++ [error_to_compilation_message error]

/-- Prepare phase, `IncludeBlock::prepare` (lines 69-75): pass-through. -/
def prepare (b : IncludeBlock) (st : ExecSt) : CompileResult :=
  ⟨b, st, WalkControl.Continue⟩

/-- Interrupt phase, `IncludeBlock::interrupt` (lines 140-146): pass-through. -/
def interrupt (b : IncludeBlock) (st : ExecSt) : CompileResult :=
  ⟨b, st, WalkControl.Continue⟩

/-- Modelled from the spec: the KernelSet contract (spec section 6), an
external variable environment with fallible asynchronous `get` and `set`.
`vars` maps (language, name) to the last-set value, newest first;
`get_fails` and `set_fails` inject kernel-level failures. -/
structure KernelState where
  vars : List (Option String × String × Node) := []
  get_fails : String → Bool := fun _ => false
  set_fails : String → Bool := fun _ => false

/-- Look a variable up by name across the kernels (as `kernels.get`, which
takes no language). -/
def kernel_lookup (k : KernelState) (name : String) : Option Node :=
  (k.vars.find? (fun e => e.2.1 == name)).map (fun e => e.2.2)

/-- Modelled from the spec: `Kernel.get(name) -> Result<Option<Node>>`. -/
def kernel_get (k : KernelState) (name : String) : Except String (Option Node) :=
  if k.get_fails name then Except.error "kernel error"
  else Except.ok (kernel_lookup k name)

/-- Modelled from the spec: `Kernel.set(name, value, language)`. -/
def kernel_set (k : KernelState) (name : String) (value : Node)
    (lang : Option String) : Except String KernelState :=
  if k.set_fails name then Except.error "kernel error"
  else Except.ok { k with vars := (lang, name, value) :: k.vars }

/-- The double-brace stripping of `execute` (lines 93-98): trim the code;
if the trimmed text starts with an opening and ends with a closing
double-brace marker, strip one layer and trim again. -/
def strip_expression_braces (code : String) : String :=
  let code_to_eval := strTrim code
  if strStartsWith code_to_eval "\x7b\x7b" && strEndsWith code_to_eval "\x7d\x7d" then
    strTrim (strDropRight (strDrop code_to_eval 2) 2)
  else
    code_to_eval

/-- The value obtained for one argument (lines 90-121): non-empty `code` is
stripped of its brace wrapper and looked up in the kernel (absence and
kernel errors both yield no value, logged only); otherwise the literal
`value` is used when present. -/
def argument_value (k : KernelState) (arg : Argument) : Option Node :=
  if arg.code ≠ "" then
    let code_to_eval := strip_expression_braces arg.code
    match kernel_get k code_to_eval with
    | Except.ok (some node) => some node
    | Except.ok none => none
    | Except.error _ => none
  else
    match arg.value with
    | some value => some value
    | none => none

/-- Bind one argument (lines 88-131): if a value was obtained, set it in
the kernel under the argument's name; a kernel-level set failure is logged
only and leaves the kernel unchanged. -/
def bind_argument (lang : Option String) (k : KernelState) (arg : Argument) :
    KernelState :=
  match argument_value k arg with
  | some value =>
    match kernel_set k arg.name value lang with
    | Except.ok k2 => k2
    | Except.error _ => k
  | none => k

/-- Result of `execute` on an include block: the (untouched) block, the
kernel state, the (untouched) executor state and the walk control. -/
structure ExecuteResult where
  block : IncludeBlock
  kernels : KernelState
  st : ExecSt
  control : WalkControl

/-- Execute phase, `IncludeBlock::execute` (lines 78-137): bind each argument in
declaration order into the kernel, then `Continue` so nested content is
executed by the default recursion.  The block and executor state are never
mutated and no messages are raised. -/
def execute (b : IncludeBlock) (env : Env) (k : KernelState) (st : ExecSt) :
    ExecuteResult :=
  if b.arguments = [] then
    ⟨b, k, st, WalkControl.Continue⟩
  else
    let lang := programming_language env none
    ⟨b, b.arguments.foldl (bind_argument lang) k, st, WalkControl.Continue⟩

/-- The SMD encoding of a non-empty argument `code`
(`src/rust/schema/src/implem/include_block.rs` lines 118-129): already
wrapped code (starts with an opening and ends with a closing double-brace)
is used as-is, otherwise one wrapping layer is added. -/
def encode_argument_code_smd (code : String) : String :=
  if strStartsWith code "\x7b\x7b" && strEndsWith code "\x7d\x7d" then
    code
  else
    "\x7b\x7b" ++ code ++ "\x7d\x7d"

/-- Resolution of a source failed: the Codec's decode of the computed
identifier errors, or the decoded node cannot be converted into blocks. -/
def resolution_failed (source : String) (media_type : Option String)
    (env : Env) (st : ExecSt) : Prop :=
  match env.decode (resolve_source source st).1 (include_decode_options media_type env) with
  | Except.error _ => True
  | Except.ok node => ∃ e, env.try_into_blocks node = Except.error e

/-- A concrete environment whose Codec always fails with "not found" and
whose walker is a no-op. -/
def envFail : Env where
  decode := fun _ _ => Except.error "not found"
  try_into_blocks := fun _ => Except.ok []
  walk := fun _ s => (Except.ok (), s)

/-- A concrete environment whose Codec decodes successfully into two blocks
and whose walker is a no-op. -/
def envTwoBlocks : Env where
  decode := fun _ _ => Except.ok ⟨0⟩
  try_into_blocks := fun _ => Except.ok [⟨1⟩, ⟨2⟩]
  walk := fun _ s => (Except.ok (), s)

/-! Section: Helper lemmas about the string model -/

lemma str_eta (s : String) : (⟨s.data⟩ : String) = s := by
  cases s
  rfl

lemma data_mk (l : List Char) : (⟨l⟩ : String).data = l := rfl

lemma data_lb : ("\x7b\x7b" : String).data = ['\x7b', '\x7b'] := rfl

lemma data_rb : ("\x7d\x7d" : String).data = ['\x7d', '\x7d'] := rfl

lemma trimLeftChars_cons_of_not_ws {c : Char} (cs : List Char) (h : charIsWs c = false) :
    trimLeftChars (c :: cs) = c :: cs := by
  simp [trimLeftChars, h]

lemma data_wrapped (x : String) :
    ("\x7b\x7b" ++ x ++ "\x7d\x7d").data
      = '\x7b' :: '\x7b' :: (x.data ++ ['\x7d', '\x7d']) := by
  simp [String.data_append, data_lb, data_rb]

lemma trimChars_braced (cs : List Char) :
    trimChars ('\x7b' :: '\x7b' :: (cs ++ ['\x7d', '\x7d']))
      = '\x7b' :: '\x7b' :: (cs ++ ['\x7d', '\x7d']) := by
  unfold trimChars
  rw [trimLeftChars_cons_of_not_ws _ (by decide)]
  have h2 : ('\x7b' :: '\x7b' :: (cs ++ ['\x7d', '\x7d'])).reverse
      = '\x7d' :: '\x7d' :: (cs.reverse ++ ['\x7b', '\x7b']) := by
    simp
  rw [h2, trimLeftChars_cons_of_not_ws _ (by decide), ← h2, List.reverse_reverse]

lemma strTrim_wrapped (x : String) :
    strTrim ("\x7b\x7b" ++ x ++ "\x7d\x7d") = "\x7b\x7b" ++ x ++ "\x7d\x7d" := by
  unfold strTrim
  rw [data_wrapped, trimChars_braced, ← data_wrapped, str_eta]

lemma startsWith_wrapped (x : String) :
    strStartsWith ("\x7b\x7b" ++ x ++ "\x7d\x7d") "\x7b\x7b" = true := by
  unfold strStartsWith
  rw [data_wrapped, data_lb]
  simp [List.isPrefixOf]

lemma endsWith_wrapped (x : String) :
    strEndsWith ("\x7b\x7b" ++ x ++ "\x7d\x7d") "\x7d\x7d" = true := by
  unfold strEndsWith
  rw [data_wrapped, data_rb]
  simp [List.isSuffixOf, List.isPrefixOf]

/-- Stripping a code whose trimmed form is exactly one double-brace wrapping
of `x` yields `x` trimmed. -/
lemma strip_of_trim_wrapped (code x : String)
    (h : strTrim code = "\x7b\x7b" ++ x ++ "\x7d\x7d") :
    strip_expression_braces code = strTrim x := by
  simp only [strip_expression_braces]
  rw [h, startsWith_wrapped, endsWith_wrapped]
  simp only [Bool.and_self, if_true]
  unfold strDrop strDropRight
  rw [data_wrapped]
  simp only [List.drop_succ_cons, List.drop_zero, data_mk, List.length_append,
    List.length_cons, List.length_nil]
  have hlen : x.data.length + (0 + 1 + 1) - 2 = x.data.length := by omega
  rw [hlen, List.take_left, str_eta]

/-! Section: Claim C10 -/

/-- Claim C10 as stated is false: for the argument code `" {{x}}"` (one
leading space), the SMD encoder wraps again (the raw code does not start
with the marker), and the execute-phase stripping of the emitted text
yields `"{{x}}"` while stripping the original code yields `"x"`. -/
theorem c10_counterexample :
    strip_expression_braces (encode_argument_code_smd " \x7b\x7bx\x7d\x7d")
      ≠ strip_expression_braces " \x7b\x7bx\x7d\x7d" := by
  decide

/-- Claim C10 (amended): for every argument whose code is non-empty and has
no leading or trailing whitespace, the SMD encoding wraps the code in the
double-brace marker iff it is not already wrapped, and applying the execute
phase's stripping to the emitted text yields the same lookup name as
applying it to the original code. -/
theorem c10_encode_strip_roundtrip (code : String) (_hne : code ≠ "")
    (htrim : strTrim code = code) :
    strip_expression_braces (encode_argument_code_smd code)
      = strip_expression_braces code := by
  unfold encode_argument_code_smd
  by_cases h : (strStartsWith code "\x7b\x7b" && strEndsWith code "\x7d\x7d") = true
  · rw [if_pos h]
  · rw [if_neg h]
    rw [strip_of_trim_wrapped _ _ (strTrim_wrapped code)]
    have hb : (strStartsWith code "\x7b\x7b" && strEndsWith code "\x7d\x7d") = false := by
      simpa using h
    simp only [strip_expression_braces]
    rw [htrim, hb]
    simp

/-- Witness for C10 (amended) at the concrete code `"{{site}}"`. -/
theorem c10_encode_strip_roundtrip_witness :
    (("\x7b\x7bsite\x7d\x7d" : String) ≠ ""
      ∧ strTrim "\x7b\x7bsite\x7d\x7d" = "\x7b\x7bsite\x7d\x7d")
    ∧ strip_expression_braces (encode_argument_code_smd "\x7b\x7bsite\x7d\x7d")
        = strip_expression_braces "\x7b\x7bsite\x7d\x7d" :=
  ⟨⟨by decide, by decide⟩,
    c10_encode_strip_roundtrip "\x7b\x7bsite\x7d\x7d" (by decide) (by decide)⟩

/-! Section: Helper lemmas about compile -/

lemma compile_resolve_content (b : IncludeBlock) (env : Env) (st : ExecSt) :
    (compile_resolve b env st).1.content
      = (source_to_content b.source b.media_type env st).1 := by
  unfold compile_resolve
  rcases h : source_to_content b.source b.media_type env st with ⟨c, pd, ms, st1⟩
  cases c <;> simp [h]

lemma compile_block_content (b : IncludeBlock) (env : Env) (st : ExecSt)
    (h : strTrim b.source ≠ "") :
    (compile b env st).block.content = (compile_resolve b env st).1.content := by
  unfold compile
  rw [if_neg h]

/-! Section: Claim C4 -/

/-- Claim C4: for a source that is empty or whitespace-only, `compile`
returns `Continue`, leaves the whole block (in particular `content`)
untouched, leaves the executor state untouched (so no patches and no
messages are generated). -/
theorem c4_blank_source_continue (b : IncludeBlock) (env : Env) (st : ExecSt)
    (h : strTrim b.source = "") :
    compile b env st = ⟨b, st, WalkControl.Continue⟩ := by
  unfold compile
  rw [if_pos h]

/-- Witness for C4 at a whitespace-only source with pre-existing content. -/
theorem c4_blank_source_continue_witness :
    strTrim "  " = ""
    ∧ compile { source := "  ", content := some [⟨3⟩] } envFail ⟨[], []⟩
        = ⟨{ source := "  ", content := some [⟨3⟩] }, ⟨[], []⟩, WalkControl.Continue⟩ :=
  ⟨by decide, c4_blank_source_continue _ _ _ (by decide)⟩

/-! Section: Claim C9 -/

/-- Claim C9: for a source starting with `http://` or `https://`, source
resolution uses the source verbatim as the identifier, owes no pop, and
leaves the executor state (in particular the DirectoryStack) unchanged;
consequently `source_to_content` also leaves the state unchanged. -/
theorem c9_url_source_frame (source : String) (media_type : Option String)
    (env : Env) (st : ExecSt)
    (h : (strStartsWith source "https://" || strStartsWith source "http://") = true) :
    resolve_source source st = (source, false, st)
    ∧ (source_to_content source media_type env st).2.2.2 = st := by
  have h1 : resolve_source source st = (source, false, st) := by
    unfold resolve_source
    rw [if_pos h]
  refine ⟨h1, ?_⟩
  unfold source_to_content
  rw [h1]
  cases hd : env.decode source (include_decode_options media_type env) with
  | ok node => cases ht : env.try_into_blocks node <;> simp [hd, ht]
  | error e => simp [hd]

/-- Witness for C9 at the concrete source `"https://example.org/page.md"`. -/
theorem c9_url_source_frame_witness :
    (strStartsWith "https://example.org/page.md" "https://"
      || strStartsWith "https://example.org/page.md" "http://") = true
    ∧ (resolve_source "https://example.org/page.md" ⟨[⟨true, ["docs"]⟩], []⟩
        = ("https://example.org/page.md", false, ⟨[⟨true, ["docs"]⟩], []⟩)
      ∧ (source_to_content "https://example.org/page.md" none envFail
          ⟨[⟨true, ["docs"]⟩], []⟩).2.2.2 = ⟨[⟨true, ["docs"]⟩], []⟩) :=
  ⟨by decide, c9_url_source_frame _ _ _ _ (by decide)⟩

/-! Section: Claim C1 -/

/-- Claim C1 as stated is false at a concrete input: a block whose `source`
is empty but whose `content` was previously set keeps its old content after
`compile` (the blank-source early return leaves `content` untouched), so
`content` is not `None` even though `source` is empty. -/
theorem c1_counterexample :
    ({ source := "", content := some [⟨7⟩] } : IncludeBlock).source = ""
    ∧ (compile { source := "", content := some [⟨7⟩] } envFail ⟨[], []⟩).block.content
        ≠ none :=
  ⟨rfl, by decide⟩

/-- Claim C1 (amended): after `compile` of a non-blank source, the block's
`content` equals exactly the resolution result — fully replaced, never
merged with its prior value — and that resolution result is `None` iff
resolution failed (decode error or block-conversion error).  (A blank
source leaves `content` untouched, see the C4 theorem.) -/
theorem c1_content_replacement (b : IncludeBlock) (env : Env) (st : ExecSt)
    (h : strTrim b.source ≠ "") :
    (compile b env st).block.content = (source_to_content b.source b.media_type env st).1
    ∧ ((source_to_content b.source b.media_type env st).1 = none
        ↔ resolution_failed b.source b.media_type env st) := by
  constructor
  · rw [compile_block_content b env st h, compile_resolve_content]
  · unfold source_to_content resolution_failed
    rcases hr : resolve_source b.source st with ⟨ident, pd, st1⟩
    cases hd : env.decode ident (include_decode_options b.media_type env) with
    | ok node => cases ht : env.try_into_blocks node <;> simp [hr, hd, ht]
    | error e => simp [hr, hd]

/-- Witness for C1 (amended) at a concrete failing decode. -/
theorem c1_content_replacement_witness :
    strTrim "missing.md" ≠ ""
    ∧ ((compile { id := 1, source := "missing.md" } envFail ⟨[], []⟩).block.content
        = (source_to_content "missing.md" none envFail ⟨[], []⟩).1
      ∧ ((source_to_content "missing.md" none envFail ⟨[], []⟩).1 = none
          ↔ resolution_failed "missing.md" none envFail ⟨[], []⟩)) :=
  ⟨by decide, c1_content_replacement { id := 1, source := "missing.md" } envFail ⟨[], []⟩
    (by decide)⟩

/-! Section: Claim C3 -/

/-- Claim C3: for a non-blank source whose decode by the Codec fails with
error `e`, `compile` sets `content` to `None`, sets the compilation
messages to exactly one Error-level message converted from the Codec's
error, and returns `Break`.  The walker hypothesis records that walking
absent content is a no-op. -/
theorem c3_decode_failure (b : IncludeBlock) (env : Env) (st : ExecSt) (e : String)
    (hsrc : strTrim b.source ≠ "")
    (hdec : env.decode (resolve_source b.source st).1
        (include_decode_options b.media_type env) = Except.error e)
    (hwalk : env.walk none ((compile_resolve b env st).2.2.2)
        = (Except.ok (), (compile_resolve b env st).2.2.2)) :
    (compile b env st).block.content = none
    ∧ (compile b env st).block.compilation_messages
        = some [⟨MessageLevel.Error, e⟩]
    ∧ (compile b env st).control = WalkControl.Break := by
  have hsc : source_to_content b.source b.media_type env st
      = (none, (resolve_source b.source st).2.1, [⟨MessageLevel.Error, e⟩],
         (resolve_source b.source st).2.2) := by
    unfold source_to_content
    rcases hr : resolve_source b.source st with ⟨ident, pd, st1⟩
    rw [hr] at hdec
    simp only at hdec
    simp [hr, hdec, error_to_compilation_message]
  have hcr : compile_resolve b env st
      = ({ b with content := none }, (resolve_source b.source st).2.1,
         [⟨MessageLevel.Error, e⟩],
         ((resolve_source b.source st).2.2).patch b.id
           [PatchOp.clear NodeProperty.content]) := by
    unfold compile_resolve
    rw [hsc]
  rw [hcr] at hwalk
  unfold compile
  rw [if_neg hsrc, hcr]
  simp [hwalk]

/-- Witness for C3 at a concrete block and failing Codec. -/
theorem c3_decode_failure_witness :
    strTrim "missing.md" ≠ ""
    ∧ envFail.decode (resolve_source "missing.md" ⟨[], []⟩).1
        (include_decode_options none envFail) = Except.error "not found"
    ∧ envFail.walk none
        ((compile_resolve { id := 2, source := "missing.md" } envFail ⟨[], []⟩).2.2.2)
      = (Except.ok (),
         (compile_resolve { id := 2, source := "missing.md" } envFail ⟨[], []⟩).2.2.2)
    ∧ ((compile { id := 2, source := "missing.md" } envFail ⟨[], []⟩).block.content = none
      ∧ (compile { id := 2, source := "missing.md" } envFail ⟨[], []⟩).block.compilation_messages
          = some [⟨MessageLevel.Error, "not found"⟩]
      ∧ (compile { id := 2, source := "missing.md" } envFail ⟨[], []⟩).control
          = WalkControl.Break) :=
  ⟨by decide, rfl, rfl,
    c3_decode_failure { id := 2, source := "missing.md" } envFail ⟨[], []⟩ "not found"
      (by decide) rfl rfl⟩

/-! Section: Claim C2 -/

lemma source_to_content_state (s : String) (mt : Option String) (env : Env) (st : ExecSt) :
    (source_to_content s mt env st).2.2.2 = (resolve_source s st).2.2
    ∧ (source_to_content s mt env st).2.1 = (resolve_source s st).2.1 := by
  unfold source_to_content
  rcases hr : resolve_source s st with ⟨ident, pd, st1⟩
  cases hd : env.decode ident (include_decode_options mt env) with
  | ok node => cases ht : env.try_into_blocks node <;> simp [hr, hd, ht]
  | error e => simp [hr, hd]

lemma compile_resolve_state_stack (b : IncludeBlock) (env : Env) (st : ExecSt) :
    (compile_resolve b env st).2.2.2.directory_stack
      = (source_to_content b.source b.media_type env st).2.2.2.directory_stack := by
  unfold compile_resolve
  rcases h : source_to_content b.source b.media_type env st with ⟨c, pd, ms, st1⟩
  cases c <;> simp [h, ExecSt.patch]

lemma compile_resolve_pop (b : IncludeBlock) (env : Env) (st : ExecSt) :
    (compile_resolve b env st).2.1
      = (source_to_content b.source b.media_type env st).2.1 := by
  unfold compile_resolve
  rcases h : source_to_content b.source b.media_type env st with ⟨c, pd, ms, st1⟩
  cases c <;> simp [h]

lemma compile_final_stack (b : IncludeBlock) (env : Env) (st : ExecSt)
    (h : strTrim b.source ≠ "") :
    (compile b env st).st.directory_stack
      = (if (compile_resolve b env st).2.1 then
          ((env.walk (compile_resolve b env st).1.content
            (compile_resolve b env st).2.2.2).2).directory_stack.tail
         else
          ((env.walk (compile_resolve b env st).1.content
            (compile_resolve b env st).2.2.2).2).directory_stack) := by
  unfold compile
  rw [if_neg h]
  rcases hr : compile_resolve b env st with ⟨b1, pd, ms, st1⟩
  rcases hw : env.walk b1.content st1 with ⟨wr, st2⟩
  cases wr <;> cases pd <;> simp [hr, hw, ExecSt.patch]

/-- Claim C2: for a non-blank, non-URL (relative) source, resolution pushes
exactly one DirectoryStack entry iff the parent directory of the resolved
path exists and differs from the current top (no push leaves the state
unchanged), and when a push occurred the nested compile of the fetched
content is walked with the pushed entry still on the stack and the final
stack after `compile` is the walker's resulting stack popped exactly once
— popped after the nested compile, not before. -/
theorem c2_directory_stack_discipline (b : IncludeBlock) (env : Env) (st : ExecSt)
    (hrel : (strStartsWith b.source "https://" || strStartsWith b.source "http://") = false)
    (hsrc : strTrim b.source ≠ "") :
    ((resolve_source b.source st).2.1 = true ↔
      ((resolved_path b.source st).parent ≠ none
        ∧ (resolved_path b.source st).parent ≠ st.directory_stack.head?))
    ∧ ((resolve_source b.source st).2.1 = true →
        (resolve_source b.source st).2.2.directory_stack
          = (resolved_path b.source st).parent.toList ++ st.directory_stack)
    ∧ ((resolve_source b.source st).2.1 = false →
        (resolve_source b.source st).2.2 = st)
    ∧ ((resolve_source b.source st).2.1 = true →
        (compile_resolve b env st).2.2.2.directory_stack
            = (resolve_source b.source st).2.2.directory_stack
        ∧ (compile b env st).st.directory_stack
            = ((env.walk (compile_resolve b env st).1.content
                  (compile_resolve b env st).2.2.2).2).directory_stack.tail) := by
  have hpop : (compile_resolve b env st).2.1 = (resolve_source b.source st).2.1 := by
    rw [compile_resolve_pop, (source_to_content_state b.source b.media_type env st).2]
  have hstack : (compile_resolve b env st).2.2.2.directory_stack
      = (resolve_source b.source st).2.2.directory_stack := by
    rw [compile_resolve_state_stack,
      congrArg ExecSt.directory_stack (source_to_content_state b.source b.media_type env st).1]
  have hfourth : (resolve_source b.source st).2.1 = true →
      (compile_resolve b env st).2.2.2.directory_stack
          = (resolve_source b.source st).2.2.directory_stack
      ∧ (compile b env st).st.directory_stack
          = ((env.walk (compile_resolve b env st).1.content
                (compile_resolve b env st).2.2.2).2).directory_stack.tail := by
    intro hp
    refine ⟨hstack, ?_⟩
    rw [compile_final_stack b env st hsrc, hpop, hp]
    simp
  refine ⟨?_, ?_, ?_, hfourth⟩ <;>
  · unfold resolve_source
    rw [hrel]
    simp only [Bool.false_eq_true, if_false]
    rcases hp : (resolved_path b.source st).parent with _ | d
    · simp [hp]
    · by_cases h2 : some d = st.directory_stack.head?
      · simp [hp, h2]
      · simp [hp, h2]

/-- Witness for C2: source `"sub/page.md"` under base directory `/docs`. -/
theorem c2_directory_stack_discipline_witness :
    (strStartsWith "sub/page.md" "https://" || strStartsWith "sub/page.md" "http://") = false
    ∧ strTrim "sub/page.md" ≠ ""
    ∧ (((resolve_source ("sub/page.md" : String)
          ⟨[⟨true, ["docs"]⟩], []⟩).2.1 = true ↔
        ((resolved_path "sub/page.md" ⟨[⟨true, ["docs"]⟩], []⟩).parent ≠ none
          ∧ (resolved_path "sub/page.md" ⟨[⟨true, ["docs"]⟩], []⟩).parent
              ≠ (⟨[⟨true, ["docs"]⟩], []⟩ : ExecSt).directory_stack.head?))
      ∧ ((resolve_source "sub/page.md" ⟨[⟨true, ["docs"]⟩], []⟩).2.1 = true →
          (resolve_source "sub/page.md" ⟨[⟨true, ["docs"]⟩], []⟩).2.2.directory_stack
            = (resolved_path "sub/page.md" ⟨[⟨true, ["docs"]⟩], []⟩).parent.toList
                ++ (⟨[⟨true, ["docs"]⟩], []⟩ : ExecSt).directory_stack)
      ∧ ((resolve_source "sub/page.md" ⟨[⟨true, ["docs"]⟩], []⟩).2.1 = false →
          (resolve_source "sub/page.md" ⟨[⟨true, ["docs"]⟩], []⟩).2.2
            = ⟨[⟨true, ["docs"]⟩], []⟩)
      ∧ ((resolve_source "sub/page.md" ⟨[⟨true, ["docs"]⟩], []⟩).2.1 = true →
          (compile_resolve { id := 3, source := "sub/page.md" } envTwoBlocks
              ⟨[⟨true, ["docs"]⟩], []⟩).2.2.2.directory_stack
            = (resolve_source "sub/page.md" ⟨[⟨true, ["docs"]⟩], []⟩).2.2.directory_stack
          ∧ (compile { id := 3, source := "sub/page.md" } envTwoBlocks
              ⟨[⟨true, ["docs"]⟩], []⟩).st.directory_stack
            = ((envTwoBlocks.walk
                  (compile_resolve { id := 3, source := "sub/page.md" } envTwoBlocks
                    ⟨[⟨true, ["docs"]⟩], []⟩).1.content
                  (compile_resolve { id := 3, source := "sub/page.md" } envTwoBlocks
                    ⟨[⟨true, ["docs"]⟩], []⟩).2.2.2).2).directory_stack.tail)) :=
  ⟨by decide, by decide,
    c2_directory_stack_discipline { id := 3, source := "sub/page.md" } envTwoBlocks
      ⟨[⟨true, ["docs"]⟩], []⟩ (by decide) (by decide)⟩

/-! Section: Claim C6 -/

lemma compile_block_messages (b : IncludeBlock) (env : Env) (st : ExecSt)
    (h : strTrim b.source ≠ "") :
    (compile b env st).block.compilation_messages
      = (if compile_generated_messages b env st = [] then none
         else some (compile_generated_messages b env st)) := by
  unfold compile compile_generated_messages
  rw [if_neg h]

lemma compile_resolve_set_messages (b : IncludeBlock) (env : Env) (st : ExecSt)
    (ms : Option (List CompilationMessage)) :
    compile_resolve { b with compilation_messages := ms } env st
      = ({ (compile_resolve b env st).1 with compilation_messages := ms },
         (compile_resolve b env st).2) := by
  unfold compile_resolve
  rcases h : source_to_content b.source b.media_type env st with ⟨c, pd, m, st1⟩
  cases c <;> simp [h]

lemma compile_generated_messages_set (b : IncludeBlock) (env : Env) (st : ExecSt)
    (ms : Option (List CompilationMessage)) :
    compile_generated_messages { b with compilation_messages := ms } env st
      = compile_generated_messages b env st := by
  unfold compile_generated_messages
  rw [compile_resolve_set_messages]

/-- Claim C6: for a non-blank source, after `compile` the block's
compilation messages are `None` iff no message was generated during
resolution or the nested compile, they are never an empty sequence, and
the field is fully replaced — its value after `compile` is independent of
whatever it held before (no accumulation across recompiles). -/
theorem c6_messages_replaced (b : IncludeBlock) (env : Env) (st : ExecSt)
    (ms : Option (List CompilationMessage)) (h : strTrim b.source ≠ "") :
    ((compile b env st).block.compilation_messages = none
      ↔ compile_generated_messages b env st = [])
    ∧ (compile b env st).block.compilation_messages ≠ some []
    ∧ (compile { b with compilation_messages := ms } env st).block.compilation_messages
        = (compile b env st).block.compilation_messages := by
  have hchar := compile_block_messages b env st h
  have h2 : strTrim ({ b with compilation_messages := ms } : IncludeBlock).source ≠ "" := h
  refine ⟨?_, ?_, ?_⟩
  · rw [hchar]
    split <;> simp_all
  · rw [hchar]
    split <;> simp_all
  · rw [compile_block_messages _ env st h2, hchar, compile_generated_messages_set]

/-- Witness for C6 at a failing decode with stale prior messages. -/
theorem c6_messages_replaced_witness :
    strTrim "missing.md" ≠ ""
    ∧ (((compile { id := 4, source := "missing.md" } envFail ⟨[], []⟩).block.compilation_messages
          = none
        ↔ compile_generated_messages { id := 4, source := "missing.md" } envFail ⟨[], []⟩ = [])
      ∧ (compile { id := 4, source := "missing.md" } envFail ⟨[], []⟩).block.compilation_messages
          ≠ some []
      ∧ (compile { ({ id := 4, source := "missing.md" } : IncludeBlock) with
            compilation_messages := some [⟨MessageLevel.Info, "old"⟩] } envFail
            ⟨[], []⟩).block.compilation_messages
          = (compile { id := 4, source := "missing.md" } envFail
              ⟨[], []⟩).block.compilation_messages) :=
  ⟨by decide,
    c6_messages_replaced { id := 4, source := "missing.md" } envFail ⟨[], []⟩
      (some [⟨MessageLevel.Info, "old"⟩]) (by decide)⟩

/-! Section: Claim C5 -/

lemma ne_empty_of_trim_wrapped (code x : String)
    (h : strTrim code = "\x7b\x7b" ++ x ++ "\x7d\x7d") : code ≠ "" := by
  intro he
  subst he
  rw [show strTrim "" = "" from by decide] at h
  have h2 := congrArg String.data h
  rw [data_wrapped] at h2
  simp at h2

/-- Claim C5: for an argument whose code, after trimming, is a variable
name wrapped in exactly one double-brace marker, where the KernelSet holds
a value for that (trimmed) name and setting succeeds, `execute` strips one
layer of the wrapping, trims again, looks the name up and stores the
retrieved value in the KernelSet under the argument's name. -/
theorem c5_argument_binding (b : IncludeBlock) (env : Env) (k : KernelState)
    (st : ExecSt) (arg : Argument) (x : String) (v : Node)
    (hargs : b.arguments = [arg])
    (hw : strTrim arg.code = "\x7b\x7b" ++ x ++ "\x7d\x7d")
    (hx : strTrim x = x)
    (hget : kernel_get k x = Except.ok (some v))
    (hset : k.set_fails arg.name = false) :
    kernel_lookup (execute b env k st).kernels arg.name = some v := by
  have hcode : arg.code ≠ "" := ne_empty_of_trim_wrapped _ _ hw
  have hstrip : strip_expression_braces arg.code = x := by
    rw [strip_of_trim_wrapped _ _ hw, hx]
  unfold execute
  rw [hargs, if_neg (by simp)]
  simp only [List.foldl_cons, List.foldl_nil]
  unfold bind_argument argument_value
  rw [if_pos hcode, hstrip]
  simp [hget, kernel_set, hset, kernel_lookup]

/-- Witness for C5: code `"{{x}}"` with `x = 5` in the kernel. -/
theorem c5_argument_binding_witness :
    ({ arguments := [⟨"name", "\x7b\x7bx\x7d\x7d", none⟩] } : IncludeBlock).arguments
        = [⟨"name", "\x7b\x7bx\x7d\x7d", none⟩]
    ∧ strTrim "\x7b\x7bx\x7d\x7d" = "\x7b\x7b" ++ "x" ++ "\x7d\x7d"
    ∧ strTrim "x" = "x"
    ∧ kernel_get { vars := [(none, "x", Node.integer 5)] } "x"
        = Except.ok (some (Node.integer 5))
    ∧ kernel_lookup
        (execute { arguments := [⟨"name", "\x7b\x7bx\x7d\x7d", none⟩] } envFail
          { vars := [(none, "x", Node.integer 5)] } ⟨[], []⟩).kernels "name"
        = some (Node.integer 5) :=
  ⟨rfl, by decide, by decide, rfl,
    c5_argument_binding { arguments := [⟨"name", "\x7b\x7bx\x7d\x7d", none⟩] } envFail
      { vars := [(none, "x", Node.integer 5)] } ⟨[], []⟩
      ⟨"name", "\x7b\x7bx\x7d\x7d", none⟩ "x" (Node.integer 5)
      rfl (by decide) (by decide) rfl rfl⟩

/-! Section: Claim C7 -/

/-- Claim C7: an argument whose code names a variable absent from the
KernelSet is skipped — the kernel is left exactly as it was for that
argument — and `execute` completes without error, never mutates the block
or the executor state (so no compilation message is raised) and returns
`Continue`. -/
theorem c7_absent_variable_skipped (b : IncludeBlock) (env : Env)
    (k k2 : KernelState) (st : ExecSt) (arg : Argument) (lang : Option String)
    (hcode : arg.code ≠ "")
    (hget : kernel_get k (strip_expression_braces arg.code) = Except.ok none) :
    bind_argument lang k arg = k
    ∧ (execute b env k2 st).block = b
    ∧ (execute b env k2 st).st = st
    ∧ (execute b env k2 st).control = WalkControl.Continue := by
  refine ⟨?_, ?_, ?_, ?_⟩
  · unfold bind_argument argument_value
    rw [if_pos hcode]
    simp [hget]
  · unfold execute
    split <;> rfl
  · unfold execute
    split <;> rfl
  · unfold execute
    split <;> rfl

/-- Witness for C7: code `"{{y}}"` with an empty kernel. -/
theorem c7_absent_variable_skipped_witness :
    ("\x7b\x7by\x7d\x7d" : String) ≠ ""
    ∧ kernel_get { vars := [] } (strip_expression_braces "\x7b\x7by\x7d\x7d")
        = Except.ok none
    ∧ (bind_argument none { vars := [] } ⟨"n", "\x7b\x7by\x7d\x7d", none⟩
          = { vars := [] }
      ∧ (execute { source := "inc.md" } envFail { vars := [] } ⟨[], []⟩).block
          = { source := "inc.md" }
      ∧ (execute { source := "inc.md" } envFail { vars := [] } ⟨[], []⟩).st = ⟨[], []⟩
      ∧ (execute { source := "inc.md" } envFail { vars := [] } ⟨[], []⟩).control
          = WalkControl.Continue) :=
  ⟨by decide, rfl,
    c7_absent_variable_skipped { source := "inc.md" } envFail { vars := [] }
      { vars := [] } ⟨[], []⟩ ⟨"n", "\x7b\x7by\x7d\x7d", none⟩ none (by decide) rfl⟩

/-! Section: Claim C8 -/

/-- Claim C8: a kernel-level failure when setting one argument's value is
logged only — the kernel is left unchanged by that argument, the binding
of the subsequent arguments proceeds from that same kernel state, no
compilation or execution message is raised (block and executor state are
untouched) and `execute` still returns `Continue`. -/
theorem c8_set_failure_continues (b : IncludeBlock) (env : Env) (k : KernelState)
    (st : ExecSt) (a : Argument) (rest : List Argument) (v : Node)
    (hargs : b.arguments = a :: rest)
    (hv : argument_value k a = some v)
    (hfail : k.set_fails a.name = true) :
    execute b env k st
      = ⟨b, rest.foldl (bind_argument (programming_language env none)) k, st,
         WalkControl.Continue⟩ := by
  unfold execute
  rw [hargs, if_neg (by simp)]
  simp only [List.foldl_cons]
  have hb : bind_argument (programming_language env none) k a = k := by
    unfold bind_argument
    rw [hv]
    simp [kernel_set, hfail]
  rw [hb]

/-- Witness for C8: setting `"n"` fails, the later argument `"m"` is still
bound. -/
theorem c8_set_failure_continues_witness :
    ({ arguments := [⟨"n", "", some (Node.integer 1)⟩, ⟨"m", "", some (Node.integer 2)⟩] }
        : IncludeBlock).arguments
      = ⟨"n", "", some (Node.integer 1)⟩ :: [⟨"m", "", some (Node.integer 2)⟩]
    ∧ argument_value { vars := [], set_fails := fun s => s == "n" }
        ⟨"n", "", some (Node.integer 1)⟩ = some (Node.integer 1)
    ∧ ({ vars := [], set_fails := fun s => s == "n" } : KernelState).set_fails "n" = true
    ∧ execute
        { arguments := [⟨"n", "", some (Node.integer 1)⟩, ⟨"m", "", some (Node.integer 2)⟩] }
        envFail { vars := [], set_fails := fun s => s == "n" } ⟨[], []⟩
      = ⟨{ arguments := [⟨"n", "", some (Node.integer 1)⟩, ⟨"m", "", some (Node.integer 2)⟩] },
         [⟨"m", "", some (Node.integer 2)⟩].foldl
           (bind_argument (programming_language envFail none))
           { vars := [], set_fails := fun s => s == "n" },
         ⟨[], []⟩, WalkControl.Continue⟩ :=
  ⟨rfl, rfl, rfl,
    c8_set_failure_continues
      { arguments := [⟨"n", "", some (Node.integer 1)⟩, ⟨"m", "", some (Node.integer 2)⟩] }
      envFail { vars := [], set_fails := fun s => s == "n" } ⟨[], []⟩
      ⟨"n", "", some (Node.integer 1)⟩ [⟨"m", "", some (Node.integer 2)⟩]
      (Node.integer 1) rfl rfl rfl⟩

end IncludeBlockVerif
